import Mathlib

/-!
# Verification of the Coin-maker-game server (`src/server.js`)

A shallow embedding of the token-marketplace backend. JavaScript numbers are
modelled as exact rationals (`ℚ`); `toFixed(9)` becomes rounding to 9 decimal
places; Firestore documents become `Option`-valued fields / association lists;
the TonCenter chain client becomes explicit response data passed into the
confirmation function. JS truthiness of optional fields is modelled by
`Option` (`none` ≙ absent or falsy), and where a present-but-falsy value
matters (`utime = 0`, `dynamicPrice = 0`) the fallback is embedded explicitly.
-/

namespace CoinMaker

/-- Epsilon used by `confirmSale` amount checks: the literal `0.0000001` in
`server.js` (lines 196 and 222). -/
def tonEps : ℚ := 1 / 10000000

/-- Rounding as in `toFixed(9)` in `server.js` (cost and price computations): round to 9
decimal places. -/
def round9 (q : ℚ) : ℚ := (round (q * 1000000000) : ℚ) / 1000000000

/-- A raw value as delivered by the chain API: `null`/`undefined`, a numeric
value, or something `Number(·)` turns into `NaN` (line 42-49 of server.js
coerces with `Number` and checks `Number.isNaN`). -/
inductive ChainValue where
  | null : ChainValue
  | nan : ChainValue
  | num : ℚ → ChainValue
deriving DecidableEq, Repr

/-- Embeds `parseTonValue` (server.js lines 42-49): `null`/`undefined` ↦ 0, `NaN` ↦ 0,
values above `1e12` are assumed to be nanotons and divided by `1e9`. -/
def parseTonValue : ChainValue → ℚ
  | .null => 0
  | .nan => 0
  | .num n => if n > 1000000000000 then n / 1000000000 else n

/-- Embeds `normalizeAddr` (server.js line 50): strip non-alphanumeric characters and
lowercase. -/
def normalizeAddr (a : String) : String :=
  String.mk ((a.toList.filter Char.isAlphanum).map Char.toLower)

inductive TokenType where
  | listing : TokenType
  | user : TokenType
deriving DecidableEq, Repr

/-- A token document. Numeric document fields are plain rationals; a missing
numeric field reads as 0 through the `|| 0` fallbacks in the source, which on
`ℚ` is the identity, so only `dynamicPrice`'s `|| 0.1` fallback needs explicit
embedding (see `applyPurchase`). -/
structure Token where
  type : TokenType
  totalSupply : ℚ := 0
  remainingSupply : ℚ := 0
  pricePerToken : ℚ := 0
  dynamicPrice : ℚ := 0
  supplyIssued : ℚ := 0
deriving DecidableEq, Repr

/-- The listing branch of `POST /api/tokens/create` (server.js lines 80-84):
`totalSupply` and `remainingSupply` both start at the supplied total. -/
def createListingToken (totalSupply pricePerToken : ℚ) : Token :=
  { type := .listing
    totalSupply := totalSupply
    remainingSupply := totalSupply
    pricePerToken := pricePerToken }

/-- The token update inside `finalize` (server.js lines 159-171): a listing
token's `remainingSupply` is decremented with a floor at 0; a user token's
`supplyIssued` grows and `dynamicPrice` is multiplied by `1 + 0.005·amount`
and re-rounded to 9 decimals.  `token.dynamicPrice || 0.1` reads 0.1 when the
stored price is 0 (or missing). -/
def applyPurchase (token : Token) (amountTokens : ℚ) : Token :=
  match token.type with
  | .listing =>
      { token with remainingSupply := max 0 (token.remainingSupply - amountTokens) }
  | .user =>
      let issued := token.supplyIssued + amountTokens
      let oldPrice := if token.dynamicPrice = 0 then 1 / 10 else token.dynamicPrice
      let factor := 1 + 5 / 1000 * amountTokens
      { token with supplyIssued := issued, dynamicPrice := round9 (oldPrice * factor) }

/-- A sequence of confirmed purchases applied to one token document. -/
def applyPurchases (token : Token) (amounts : List ℚ) : Token :=
  amounts.foldl applyPurchase token

inductive SaleStatus where
  | pending : SaleStatus
  | pending_check : SaleStatus
  | confirmed : SaleStatus
deriving DecidableEq, Repr

/-- A sale document (created by `POST /api/tokens/:id/buy`, server.js
lines 122-128). -/
structure Sale where
  tokenId : String
  buyer : String
  seller : String
  amountTokens : ℚ
  cost : ℚ
  status : SaleStatus
  txHash : Option String := none
  confirmedAt : Option ℕ := none
deriving DecidableEq, Repr

/-- The `in_msg` of a chain transaction. `value` is `none` when the field is
absent or falsy (the source guards with `in_msg.value` truthiness); `source`
collapses `in_msg.source || in_msg.source_address`, `none` when both are
absent/falsy; `hash` is `in_msg.hash`. -/
structure InMsg where
  value : Option ChainValue := none
  source : Option String := none
  hash : Option String := none
deriving DecidableEq, Repr

/-- A transaction as returned by TonCenter. `utime` is the transaction's chain
timestamp field (`tx.utime || tx.time`, collapsed; `none` when absent). -/
structure ChainTx where
  utime : Option ℕ := none
  in_msg : Option InMsg := none
  value : Option ChainValue := none
  source : Option String := none
  id : Option String := none
  hash : Option String := none
deriving DecidableEq, Repr

/-- The timestamp the scan loop computes: `tx.utime || tx.time || 0`
(server.js line 215). A stored timestamp of 0 is falsy in JS, so `some 0` and
`none` both read as 0. -/
def txUtime (t : ChainTx) : ℕ := t.utime.getD 0

/-- Value extraction shared by both confirmation paths (server.js lines
191-194 and 219-221): `in_msg.value` if present, else `tx.value`, else 0. -/
def txValue (t : ChainTx) : ℚ :=
  match t.in_msg.bind (fun m => m.value) with
  | some v => parseTonValue v
  | none =>
    match t.value with
    | some v => parseTonValue v
    | none => 0

/-- Sender extraction on the direct-hash path (server.js line 195):
`in_msg.source || in_msg.source_address`, else null. -/
def txSenderDirect (t : ChainTx) : Option String :=
  t.in_msg.bind (fun m => m.source)

/-- Sender extraction on the scan path (server.js line 224): like the direct
path but additionally falling back to `tx.source`. -/
def txSenderScan (t : ChainTx) : Option String :=
  match t.in_msg.bind (fun m => m.source) with
  | some s => some s
  | none => t.source

/-- Embeds `matched.id || matched.hash || (matched.in_msg && matched.in_msg.hash) ||
null` (server.js line 234). -/
def txFoundHash (t : ChainTx) : Option String :=
  match t.id with
  | some s => some s
  | none =>
    match t.hash with
    | some s => some s
    | none => t.in_msg.bind (fun m => m.hash)

/-- The age filter of the scan loop (server.js line 217):
`utime && (now - utime > 60*60*24)` skips the transaction. A zero (or absent)
`utime` is falsy, so such transactions are never skipped. -/
def scanOld (nowSec : ℕ) (t : ChainTx) : Bool :=
  txUtime t != 0 && decide ((nowSec : ℤ) - (txUtime t : ℤ) > 60 * 60 * 24)

/-- One iteration of the scan loop's match decision (server.js lines 214-228):
skip if too old; otherwise the transaction matches when its value meets
`cost - ε`.  The source then looks at the sender, but both branches of that
check do `matched = tx; break` (line 225 and the "accept anyway" line 227), so
the sender comparison never rejects; the two-armed `if` below embeds that
literally. -/
def scanMatches (sale : Sale) (nowSec : ℕ) (t : ChainTx) : Bool :=
  if scanOld nowSec t then false
  else if sale.cost - tonEps ≤ txValue t then
    match txSenderScan t with
    | none => true
    | some s => if normalizeAddr s == normalizeAddr sale.buyer then true else true
  else false

/-- The scan loop itself: first match in the order returned by the chain
client wins (server.js lines 213-229). -/
def scanFind (sale : Sale) (nowSec : ℕ) : List ChainTx → Option ChainTx
  | [] => none
  | t :: ts => if scanMatches sale nowSec t then some t else scanFind sale nowSec ts

/-- A history document; the fields written by the three history writers
(server.js lines 131, 179, 262), unused ones defaulted. -/
structure HistoryEntry where
  type : String
  saleId : String := ""
  tokenId : String := ""
  buyer : String := ""
  seller : String := ""
  fromAddr : String := ""
  toAddr : String := ""
  amount : ℚ := 0
  cost : ℚ := 0
deriving DecidableEq, Repr

/-- The documents `POST /api/sales/:saleId/confirm` reads and writes: the sale
itself, its token document (`none` when `tokenDoc.exists` is false), the
buyer's balance document for that token (`none` when absent), and the history
collection (append-only, modelled as a list). -/
structure ConfirmState where
  sale : Sale
  token : Option Token := none
  balance : Option ℚ := none
  history : List HistoryEntry := []
deriving DecidableEq, Repr

/-- The chain-client responses visible to one `confirmSale` call. `direct` is
the outcome of `getTransaction` for the supplied hash, with `none` covering
network error, a non-`ok` response and a missing `result` (server.js lines
186-188 treat all three identically); `recent` is the `getTransactions`
response for the seller address, `none` when unavailable (lines 206-210), with
a missing `result` list read as `[]` (line 211). `nowSec` is
`Math.floor(Date.now()/1000)` and `nowMs` is `Date.now()`. -/
structure ChainEnv where
  direct : Option ChainTx := none
  recent : Option (List ChainTx) := none
  nowSec : ℕ := 0
  nowMs : ℕ := 0
deriving DecidableEq, Repr

/-- The response bodies the confirm handler can produce. -/
inductive ConfirmResp where
  /-- Response `\x7bok:true, message:already_confirmed\x7d` (line 152). -/
  | alreadyConfirmed : ConfirmResp
  /-- Response `\x7bok:true, message:sale_confirmed\x7d` (line 180). -/
  | saleConfirmed : ConfirmResp
  /-- Response HTTP 400 `\x7bok:false, reason:tx_mismatch, foundAmount, sender\x7d`
  (line 199). -/
  | txMismatch : ℚ → Option String → ConfirmResp
  /-- Response `\x7bok:false, reason:txs_unavailable\x7d` (line 209). -/
  | txsUnavailable : ConfirmResp
  /-- Response `\x7bok:false, reason:not_found\x7d` (line 232). -/
  | notFound : ConfirmResp
deriving DecidableEq, Repr

/-- Embeds `finalize` (server.js lines 154-181): mark the sale confirmed with the
matched hash and timestamp, apply the purchase to the token (when the token
document exists), credit the buyer's balance, append a `buy_confirmed` history
entry. -/
def finalize (st : ConfirmState) (foundHash : Option String) (nowMs : ℕ) :
    ConfirmState × ConfirmResp :=
  let sale := { st.sale with status := .confirmed, txHash := foundHash,
                             confirmedAt := some nowMs }
  let token := st.token.map (fun t => applyPurchase t st.sale.amountTokens)
  let prev := st.balance.getD 0
  let entry : HistoryEntry :=
    { type := "buy_confirmed", tokenId := st.sale.tokenId, buyer := st.sale.buyer,
      seller := st.sale.seller, amount := st.sale.amountTokens, cost := st.sale.cost }
  ({ sale := sale, token := token, balance := some (prev + st.sale.amountTokens),
     history := st.history ++ [entry] },
   .saleConfirmed)

/-- Set the sale's status to `pending_check` (server.js lines 208 and 231). -/
def pendingCheck (st : ConfirmState) : ConfirmState :=
  { st with sale := { st.sale with status := .pending_check } }

/-- The sender acceptability check of the direct-hash path (server.js
line 197): `sender ? normalizeAddr(sender) === normalizeAddr(sale.buyer) :
true`. -/
def okSenderDirect (sale : Sale) (sender : Option String) : Bool :=
  match sender with
  | some s => normalizeAddr s == normalizeAddr sale.buyer
  | none => true

/-- The direct-hash path (server.js lines 184-202). Returns `none` when the
path falls through to the scan (no truthy `txHash`, or the lookup failed /
found nothing), `some` when it produces the response itself. -/
def confirmDirect (st : ConfirmState) (txHash : Option String) (env : ChainEnv) :
    Option (ConfirmState × ConfirmResp) :=
  if txHash.getD "" = "" then none
  else
    match env.direct with
    | none => none
    | some tx =>
      let val := txValue tx
      let sender := txSenderDirect tx
      let okAmount : Bool := decide (st.sale.cost - tonEps ≤ val)
      if okAmount && okSenderDirect st.sale sender then
        some (finalize st txHash env.nowMs)
      else
        some (st, .txMismatch val sender)

/-- The scan path (server.js lines 204-235). -/
def confirmScan (st : ConfirmState) (env : ChainEnv) : ConfirmState × ConfirmResp :=
  match env.recent with
  | none => (pendingCheck st, .txsUnavailable)
  | some txs =>
    match scanFind st.sale env.nowSec txs with
    | none => (pendingCheck st, .notFound)
    | some tx => finalize st (txFoundHash tx) env.nowMs

/-- The whole `POST /api/sales/:saleId/confirm` handler after the sale document
has been fetched (server.js lines 152-235). -/
def confirmSale (st : ConfirmState) (txHash : Option String) (env : ChainEnv) :
    ConfirmState × ConfirmResp :=
  if st.sale.status = .confirmed then (st, .alreadyConfirmed)
  else
    match confirmDirect st txHash env with
    | some out => out
    | none => confirmScan st env

/-- The `balances` collection: document id ↦ amount. -/
abbrev Balances := List (String × ℚ)

/-- Balance document ids: `` `${tokenId}__${address}` `` (server.js lines 174
and 253-254). -/
def balKey (tokenId addr : String) : String := tokenId ++ "__" ++ addr

/-- Read a balance document: a missing document reads as 0, as does the
`Number(data().amount || 0)` fallback. -/
def getBal (bs : Balances) (key : String) : ℚ := (bs.lookup key).getD 0

/-- Write (upsert) a balance document. -/
def setBal (bs : Balances) (key : String) (amount : ℚ) : Balances :=
  (key, amount) :: bs.filter (fun kv => kv.1 ≠ key)

/-- Outcomes of `POST /api/transfer`. -/
inductive TransferResult where
  /-- Response HTTP 400 `\x7berror:missing\x7d` (line 250). -/
  | missing : TransferResult
  /-- Response HTTP 400 `\x7berror:bad_amount\x7d` (line 252). -/
  | badAmount : TransferResult
  /-- Response HTTP 400 `\x7berror:insufficient\x7d` (line 257). -/
  | insufficient : TransferResult
  /-- Response `\x7bok:true\x7d` (line 263). -/
  | ok : TransferResult
deriving DecidableEq, Repr

/-- Embeds `POST /api/transfer` (server.js lines 247-268): validate, read the sender
balance (0 when absent), reject when it is below the amount, else debit the
sender, credit the recipient, append a `transfer` history entry. The `!amount`
truthiness test makes a zero amount fail the `missing` check. -/
def transfer (bs : Balances) (hist : List HistoryEntry)
    (tokenId fromAddr toAddr : String) (amount : ℚ) :
    Balances × List HistoryEntry × TransferResult :=
  if tokenId = "" ∨ fromAddr = "" ∨ toAddr = "" ∨ amount = 0 then
    (bs, hist, .missing)
  else if amount ≤ 0 then (bs, hist, .badAmount)
  else
    let haveAmt := getBal bs (balKey tokenId fromAddr)
    if haveAmt < amount then (bs, hist, .insufficient)
    else
      let bs1 := setBal bs (balKey tokenId fromAddr) (haveAmt - amount)
      let prev := getBal bs1 (balKey tokenId toAddr)
      let bs2 := setBal bs1 (balKey tokenId toAddr) (prev + amount)
      let entry : HistoryEntry :=
        { type := "transfer", tokenId := tokenId, fromAddr := fromAddr,
          toAddr := toAddr, amount := amount }
      (bs2, hist ++ [entry], .ok)

/-! ## Concrete documents used by counterexamples and witnesses -/

/-- A pending sale with cost 5 whose buyer is `buyerA`. -/
def saleC1 : Sale :=
  { tokenId := "tok1", buyer := "buyerA", seller := "sellerA", amountTokens := 2,
    cost := 5, status := .pending }

/-- A fresh transaction paying exactly 5, whose visible sender `EVIL999` is not
the buyer of `saleC1`. -/
def txC1 : ChainTx :=
  { utime := some 1000, in_msg := some { value := some (.num 5), source := some "EVIL999" },
    hash := some "hashC1" }

/-! ## General lemmas about the scan loop -/

/-- The sender inspection in the scan loop accepts in both branches, so a
transaction matches exactly when it passes the age filter and the amount
threshold. -/
theorem scanMatches_eq (sale : Sale) (nowSec : ℕ) (t : ChainTx) :
    scanMatches sale nowSec t =
      (!scanOld nowSec t && decide (sale.cost - tonEps ≤ txValue t)) := by
  unfold scanMatches
  cases h : scanOld nowSec t with
  | true => simp
  | false =>
    simp only [if_false, Bool.not_true, Bool.not_false, Bool.true_and]
    by_cases hv : sale.cost - tonEps ≤ txValue t
    · simp only [hv, if_true]
      cases hs : txSenderScan t with
      | none => simp [hv]
      | some s =>
        by_cases he : normalizeAddr s == normalizeAddr sale.buyer <;> simp [he, hv]
    · simp [hv]

/-- The scan loop is a first-match search. -/
theorem scanFind_eq_find (sale : Sale) (nowSec : ℕ) (txs : List ChainTx) :
    scanFind sale nowSec txs = txs.find? (scanMatches sale nowSec) := by
  induction txs with
  | nil => rfl
  | cons t ts ih =>
    unfold scanFind
    cases h : scanMatches sale nowSec t with
    | true => simp [List.find?, h]
    | false => simp [List.find?, h, ih]

/-- Whatever the scan loop returns satisfies its match predicate. -/
theorem scanFind_matches (sale : Sale) (nowSec : ℕ) (txs : List ChainTx) (t : ChainTx)
    (h : scanFind sale nowSec txs = some t) : scanMatches sale nowSec t = true := by
  rw [scanFind_eq_find] at h
  exact List.find?_some h

/-! ## Claim theorems -/

/-- C6: `parseTonValue` on a numeric raw value divides by `1e9` exactly when
the value exceeds `1e12`, and otherwise keeps it; in particular a reported
value of `2000000000000` is normalized to `2000` standard units. -/
theorem parseTonValue_normalization :
    (∀ v : ℚ, parseTonValue (.num v) =
      if v > 1000000000000 then v / 1000000000 else v) ∧
    parseTonValue (.num 2000000000000) = 2000 := by
  refine ⟨fun v => rfl, ?_⟩
  show (if (2000000000000 : ℚ) > 1000000000000 then (2000000000000 : ℚ) / 1000000000
        else 2000000000000) = 2000
  norm_num

/-- C10: `parseTonValue` is total and returns 0 on `null`/`undefined` and on
values that do not parse as a number; a transaction with no numeric value
extracts to 0, and 0 can never meet the threshold `cost - 1e-7` once the cost
exceeds `1e-7`. -/
theorem parseTonValue_default_zero :
    parseTonValue .null = 0 ∧ parseTonValue .nan = 0 ∧
    (∀ t : ChainTx, t.in_msg.bind (fun m => m.value) = none → t.value = none →
      txValue t = 0) ∧
    (∀ cost : ℚ, tonEps < cost → ¬ (cost - tonEps ≤ parseTonValue .null)) := by
  refine ⟨rfl, rfl, ?_, ?_⟩
  · intro t h1 h2
    unfold txValue
    rw [h1, h2]
  · intro cost hc
    show ¬ (cost - tonEps ≤ 0)
    intro h
    linarith

/-- C10 witness: a sale of cost 10 can never be matched by a transaction whose
value field is `null`. -/
theorem parseTonValue_default_zero_witness :
    tonEps < (10 : ℚ) ∧ ¬ ((10 : ℚ) - tonEps ≤ parseTonValue .null) :=
  ⟨by norm_num [tonEps], parseTonValue_default_zero.2.2.2 10 (by norm_num [tonEps])⟩

/-- C1 counterexample: in the scan path, a fresh transaction whose value meets
the threshold is accepted even though its sender is present and does not equal
the buyer after normalization — the sender comparison never rejects (server.js
lines 223-227, "accept anyway"). -/
theorem scan_sender_mismatch_cex :
    txSenderScan txC1 = some "EVIL999" ∧
    normalizeAddr "EVIL999" ≠ normalizeAddr saleC1.buyer ∧
    saleC1.cost - tonEps ≤ txValue txC1 ∧
    scanFind saleC1 1000 [txC1] = some txC1 := by
  have hval : txValue txC1 = 5 := by
    show parseTonValue (.num 5) = 5
    show (if (5 : ℚ) > 1000000000000 then (5 : ℚ) / 1000000000 else 5) = 5
    norm_num
  have hamt : saleC1.cost - tonEps ≤ txValue txC1 := by
    rw [hval]
    show (5 : ℚ) - tonEps ≤ 5
    norm_num [tonEps]
  refine ⟨rfl, by decide, hamt, ?_⟩
  have hm : scanMatches saleC1 1000 txC1 = true := by
    rw [scanMatches_eq]
    have hold : scanOld 1000 txC1 = false := by
      show (decide ((1000 : ℕ) ≠ 0) && decide ((1000 : ℤ) - 1000 > 60 * 60 * 24)) = false
      decide
    simp [hold, hamt]
  simp [scanFind, hm]

/-- C1 (amended): the scan path accepts the first transaction, in the order
returned by the chain client, that passes the 24-hour filter and whose
normalized value is at least `cost - 1e-7`; the sender is not consulted — a
present non-matching sender does not disqualify a transaction any more than an
absent one does. -/
theorem scan_accepts_first_amount_match (sale : Sale) (nowSec : ℕ) (txs : List ChainTx) :
    scanFind sale nowSec txs =
      txs.find? (fun t => !scanOld nowSec t && decide (sale.cost - tonEps ≤ txValue t)) := by
  rw [scanFind_eq_find]
  have h : scanMatches sale nowSec =
      (fun t => !scanOld nowSec t && decide (sale.cost - tonEps ≤ txValue t)) :=
    funext (scanMatches_eq sale nowSec)
  rw [h]

/-- A pending sale with cost 5 used by the age-filter claims. -/
def saleC7 : Sale :=
  { tokenId := "tok7", buyer := "buyer7", seller := "seller7", amountTokens := 1,
    cost := 5, status := .pending }

/-- A qualifying transaction whose chain timestamp is 0. -/
def txC7 : ChainTx :=
  { utime := some 0, in_msg := some { value := some (.num 5) } }

/-- A qualifying transaction with the nonzero but stale timestamp 100. -/
def txW7 : ChainTx :=
  { utime := some 100, in_msg := some { value := some (.num 5) } }

/-- C7 counterexample: a transaction whose chain timestamp is 0 — more than 24
hours before a current time of 1000000 — is still selected by the scan,
because `utime && ...` (server.js line 217) treats a zero timestamp as falsy
and skips the age check. -/
theorem scan_age_zero_cex :
    txC7.utime = some 0 ∧
    ((1000000 : ℤ) - 0 > 60 * 60 * 24) ∧
    saleC7.cost - tonEps ≤ txValue txC7 ∧
    scanFind saleC7 1000000 [txC7] = some txC7 := by
  have hval : txValue txC7 = 5 := by
    show parseTonValue (.num 5) = 5
    show (if (5 : ℚ) > 1000000000000 then (5 : ℚ) / 1000000000 else 5) = 5
    norm_num
  have hamt : saleC7.cost - tonEps ≤ txValue txC7 := by
    rw [hval]
    show (5 : ℚ) - tonEps ≤ 5
    norm_num [tonEps]
  refine ⟨rfl, by decide, hamt, ?_⟩
  have hm : scanMatches saleC7 1000000 txC7 = true := by
    rw [scanMatches_eq]
    have hold : scanOld 1000000 txC7 = false := by
      show (decide ((0 : ℕ) ≠ 0) && decide ((1000000 : ℤ) - 0 > 60 * 60 * 24)) = false
      decide
    simp [hold, hamt]
  simp [scanFind, hm]

/-- C7 (amended): a transaction whose chain timestamp is nonzero and more than
24 hours before the current time is never selected by the scan; a zero (or
absent) timestamp, however, bypasses the age filter. -/
theorem scan_age_filter (sale : Sale) (nowSec : ℕ) (txs : List ChainTx) (t : ChainTx)
    (u : ℕ) (hu : t.utime = some u) (hz : u ≠ 0)
    (hold : (nowSec : ℤ) - (u : ℤ) > 60 * 60 * 24) :
    scanFind sale nowSec txs ≠ some t := by
  intro h
  have hm := scanFind_matches sale nowSec txs t h
  rw [scanMatches_eq] at hm
  have hskip : scanOld nowSec t = true := by
    unfold scanOld txUtime
    rw [hu]
    simp only [Option.getD_some, Bool.and_eq_true, ne_eq, decide_eq_true_eq]
    exact ⟨by simpa using hz, by omega⟩
  rw [hskip] at hm
  simp at hm

/-- C7 witness: a qualifying transaction with stale nonzero timestamp 100 is
not selected at current time 1000000. -/
theorem scan_age_filter_witness :
    txW7.utime = some 100 ∧ (100 : ℕ) ≠ 0 ∧ ((1000000 : ℤ) - 100 > 60 * 60 * 24) ∧
    scanFind saleC7 1000000 [txW7] ≠ some txW7 :=
  ⟨rfl, by decide, by decide,
    scan_age_filter saleC7 1000000 [txW7] txW7 100 rfl (by decide) (by decide)⟩

/-- A sale document that is already confirmed, with surrounding documents. -/
def stC3 : ConfirmState :=
  { sale := { tokenId := "tok3", buyer := "b3", seller := "s3", amountTokens := 1,
              cost := 1, status := .confirmed },
    token := some (createListingToken 10 1), balance := some 4, history := [] }

/-- C3: confirming an already-confirmed sale is idempotent — the handler
returns the `already_confirmed` success response and no document (sale, token,
balance, history) is changed (server.js line 152). -/
theorem confirm_already_confirmed (st : ConfirmState) (txHash : Option String)
    (env : ChainEnv) (h : st.sale.status = .confirmed) :
    confirmSale st txHash env = (st, .alreadyConfirmed) := by
  unfold confirmSale
  rw [if_pos h]

/-- C3 witness: re-confirming the concrete confirmed sale `stC3` changes
nothing. -/
theorem confirm_already_confirmed_witness :
    stC3.sale.status = .confirmed ∧
    confirmSale stC3 (some "someHash") {} = (stC3, .alreadyConfirmed) :=
  ⟨rfl, confirm_already_confirmed stC3 (some "someHash") {} rfl⟩

/-- The Bool-valued sender check of the direct path agrees with the claim's
"sender unknown, or normalized sender equals normalized buyer". -/
theorem okSenderDirect_eq_true (sale : Sale) (sender : Option String) :
    okSenderDirect sale sender = true ↔
      (sender = none ∨ ∃ s, sender = some s ∧ normalizeAddr s = normalizeAddr sale.buyer) := by
  cases sender with
  | none => simp [okSenderDirect]
  | some s => simp [okSenderDirect]

/-- C2: on the direct-hash path, a found transaction is accepted exactly when
its normalized value is at least `cost - 1e-7` and its sender is unknown or
normalizes to the buyer; on accept the sale is finalized (status becomes
`confirmed`), on reject the handler answers `tx_mismatch` with the observed
amount and sender and leaves every document — in particular the sale's status
— unchanged (server.js lines 184-202). -/
theorem direct_hash_accept (st : ConfirmState) (h : String) (env : ChainEnv)
    (tx : ChainTx) (hs : st.sale.status ≠ .confirmed) (hh : h ≠ "")
    (hd : env.direct = some tx) :
    (st.sale.cost - tonEps ≤ txValue tx ∧
        (txSenderDirect tx = none ∨
          ∃ s, txSenderDirect tx = some s ∧ normalizeAddr s = normalizeAddr st.sale.buyer) →
      confirmSale st (some h) env = finalize st (some h) env.nowMs ∧
      (finalize st (some h) env.nowMs).1.sale.status = .confirmed) ∧
    (¬ (st.sale.cost - tonEps ≤ txValue tx ∧
        (txSenderDirect tx = none ∨
          ∃ s, txSenderDirect tx = some s ∧ normalizeAddr s = normalizeAddr st.sale.buyer)) →
      confirmSale st (some h) env = (st, .txMismatch (txValue tx) (txSenderDirect tx))) := by
  have hcd : confirmDirect st (some h) env =
      (if decide (st.sale.cost - tonEps ≤ txValue tx)
            && okSenderDirect st.sale (txSenderDirect tx)
       then some (finalize st (some h) env.nowMs)
       else some (st, .txMismatch (txValue tx) (txSenderDirect tx))) := by
    unfold confirmDirect
    rw [show (some h).getD "" = h from rfl, if_neg hh, hd]
  constructor
  · intro hacc
    have hb : (decide (st.sale.cost - tonEps ≤ txValue tx)
        && okSenderDirect st.sale (txSenderDirect tx)) = true := by
      rw [Bool.and_eq_true, decide_eq_true_eq]
      exact ⟨hacc.1, (okSenderDirect_eq_true st.sale (txSenderDirect tx)).mpr hacc.2⟩
    refine ⟨?_, rfl⟩
    unfold confirmSale
    rw [if_neg hs, hcd, if_pos hb]
  · intro hnacc
    have hb : ¬ ((decide (st.sale.cost - tonEps ≤ txValue tx)
        && okSenderDirect st.sale (txSenderDirect tx)) = true) := by
      intro hb'
      rw [Bool.and_eq_true, decide_eq_true_eq] at hb'
      exact hnacc ⟨hb'.1, (okSenderDirect_eq_true st.sale (txSenderDirect tx)).mp hb'.2⟩
    unfold confirmSale
    rw [if_neg hs, hcd, if_neg hb]

/-- A pending sale with cost 10. -/
def stC2 : ConfirmState :=
  { sale := { tokenId := "tok2", buyer := "b2", seller := "s2", amountTokens := 1,
              cost := 10, status := .pending },
    token := some (createListingToken 10 10), balance := none, history := [] }

/-- A transaction found by hash whose value is `9.999999` and whose sender is
hidden. -/
def txC2 : ChainTx :=
  { in_msg := some { value := some (.num (9999999 / 1000000)) } }

/-- Chain responses for the C2 witness: the direct lookup finds `txC2`. -/
def envC2 : ChainEnv :=
  { direct := some txC2, recent := some [], nowSec := 0, nowMs := 0 }

/-- C2 witness: a direct-hash confirmation with value `9.999999` against cost
`10` misses the `1e-7` tolerance by `1e-6` and is rejected with `tx_mismatch`,
leaving the sale untouched. -/
theorem direct_hash_accept_witness :
    stC2.sale.status ≠ .confirmed ∧ ("deadbeef" : String) ≠ "" ∧
    envC2.direct = some txC2 ∧
    ¬ (stC2.sale.cost - tonEps ≤ txValue txC2 ∧
        (txSenderDirect txC2 = none ∨
          ∃ s, txSenderDirect txC2 = some s ∧
            normalizeAddr s = normalizeAddr stC2.sale.buyer)) ∧
    confirmSale stC2 (some "deadbeef") envC2
      = (stC2, .txMismatch (txValue txC2) (txSenderDirect txC2)) := by
  have hval : txValue txC2 = 9999999 / 1000000 := by
    show parseTonValue (.num (9999999 / 1000000)) = 9999999 / 1000000
    show (if (9999999 / 1000000 : ℚ) > 1000000000000
          then (9999999 / 1000000 : ℚ) / 1000000000 else 9999999 / 1000000)
        = 9999999 / 1000000
    norm_num
  have hnacc : ¬ (stC2.sale.cost - tonEps ≤ txValue txC2 ∧
      (txSenderDirect txC2 = none ∨
        ∃ s, txSenderDirect txC2 = some s ∧
          normalizeAddr s = normalizeAddr stC2.sale.buyer)) := by
    intro hc
    have h1 := hc.1
    rw [hval] at h1
    have h2 : stC2.sale.cost = 10 := rfl
    rw [h2] at h1
    norm_num [tonEps] at h1
  exact ⟨by simp [stC2], by decide, rfl, hnacc,
    (direct_hash_accept stC2 "deadbeef" envC2 txC2 (by simp [stC2]) (by decide) rfl).2 hnacc⟩

/-- C8: chain-client failures never escape the confirm handler. When the scan
path runs (no truthy hash, or the direct lookup failed) and the
recent-transactions query is unavailable, the sale is marked `pending_check`
and the answer is the structured `txs_unavailable` failure; when the scan
completes without a qualifying transaction, the sale is marked `pending_check`
and the answer is `not_found`; and a failed direct-hash lookup behaves exactly
as if no hash had been supplied, falling through to the scan (server.js lines
184-235). -/
theorem chain_failures (st : ConfirmState) (txHash : Option String) (env : ChainEnv)
    (hs : st.sale.status ≠ .confirmed) :
    (env.recent = none → txHash.getD "" = "" ∨ env.direct = none →
      confirmSale st txHash env = (pendingCheck st, .txsUnavailable)) ∧
    (∀ txs : List ChainTx, env.recent = some txs →
      scanFind st.sale env.nowSec txs = none →
      txHash.getD "" = "" ∨ env.direct = none →
      confirmSale st txHash env = (pendingCheck st, .notFound)) ∧
    (∀ h : String, env.direct = none →
      confirmSale st (some h) env = confirmSale st none env) := by
  have hnone : ∀ th : Option String, th.getD "" = "" ∨ env.direct = none →
      confirmDirect st th env = none := by
    intro th hcase
    unfold confirmDirect
    rcases hcase with hc | hc
    · rw [if_pos hc]
    · by_cases hh : th.getD "" = ""
      · rw [if_pos hh]
      · rw [if_neg hh, hc]
  refine ⟨?_, ?_, ?_⟩
  · intro hrec hcase
    unfold confirmSale
    rw [if_neg hs, hnone txHash hcase]
    unfold confirmScan
    rw [hrec]
  · intro txs hrec hfind hcase
    unfold confirmSale
    rw [if_neg hs, hnone txHash hcase]
    unfold confirmScan
    rw [hrec]
    show (match scanFind st.sale env.nowSec txs with
          | none => (pendingCheck st, ConfirmResp.notFound)
          | some tx => finalize st (txFoundHash tx) env.nowMs)
        = (pendingCheck st, ConfirmResp.notFound)
    rw [hfind]
  · intro h hd
    unfold confirmSale
    rw [if_neg hs, if_neg hs, hnone (some h) (Or.inr hd), hnone none (Or.inl rfl)]

/-- A pending sale whose confirmation will need the chain client. -/
def stC8 : ConfirmState :=
  { sale := { tokenId := "tok8", buyer := "b8", seller := "s8", amountTokens := 1,
              cost := 3, status := .pending } }

/-- Chain responses where the recent-transactions query is unavailable. -/
def envC8 : ChainEnv := { recent := none }

/-- C8 witness: with the recent-transactions query unavailable, confirming the
pending sale `stC8` marks it `pending_check` and reports `txs_unavailable`. -/
theorem chain_failures_witness :
    stC8.sale.status ≠ .confirmed ∧ envC8.recent = none ∧
    confirmSale stC8 none envC8 = (pendingCheck stC8, .txsUnavailable) :=
  ⟨by simp [stC8], rfl,
    (chain_failures stC8 none envC8 (by simp [stC8])).1 rfl (Or.inl rfl)⟩

/-- C9: a transfer whose amount exceeds the sender's current balance (0 when
no balance document exists) fails with `insufficient`, leaving the whole
balances collection — in particular both the sender's and the recipient's
documents — and the history log unchanged (server.js lines 247-268). -/
theorem transfer_insufficient (bs : Balances) (hist : List HistoryEntry)
    (tokenId fromAddr toAddr : String) (amount : ℚ)
    (h1 : tokenId ≠ "") (h2 : fromAddr ≠ "") (h3 : toAddr ≠ "") (hamt : 0 < amount)
    (hins : getBal bs (balKey tokenId fromAddr) < amount) :
    transfer bs hist tokenId fromAddr toAddr amount = (bs, hist, .insufficient) := by
  have hc1 : ¬ (tokenId = "" ∨ fromAddr = "" ∨ toAddr = "" ∨ amount = 0) := by
    push_neg
    exact ⟨h1, h2, h3, ne_of_gt hamt⟩
  have hc2 : ¬ (amount ≤ 0) := not_le.mpr hamt
  simp only [transfer, if_neg hc1, if_neg hc2]
  rw [if_pos hins]

/-- C9 witness: transferring 5 tokens from an address with no balance document
fails with `insufficient` and changes nothing. -/
theorem transfer_insufficient_witness :
    ("tokA" : String) ≠ "" ∧ (0 : ℚ) < 5 ∧
    getBal [] (balKey "tokA" "alice") < 5 ∧
    transfer [] [] "tokA" "alice" "bob" 5 = ([], [], .insufficient) :=
  ⟨by decide, by norm_num, by norm_num [getBal, List.lookup],
    transfer_insufficient [] [] "tokA" "alice" "bob" 5 (by decide) (by decide)
      (by decide) (by norm_num) (by norm_num [getBal, List.lookup])⟩

/-! ## Supply bookkeeping lemmas -/

theorem applyPurchase_type (t : Token) (a : ℚ) : (applyPurchase t a).type = t.type := by
  unfold applyPurchase
  cases h : t.type <;> rfl

theorem applyPurchase_totalSupply (t : Token) (a : ℚ) :
    (applyPurchase t a).totalSupply = t.totalSupply := by
  unfold applyPurchase
  cases h : t.type <;> rfl

theorem applyPurchase_listing_remaining (t : Token) (a : ℚ) (ht : t.type = .listing) :
    (applyPurchase t a).remainingSupply = max 0 (t.remainingSupply - a) := by
  unfold applyPurchase
  rw [ht]

theorem applyPurchase_user_remaining (t : Token) (a : ℚ) (ht : t.type = .user) :
    (applyPurchase t a).remainingSupply = t.remainingSupply := by
  unfold applyPurchase
  rw [ht]

theorem applyPurchases_totalSupply (as : List ℚ) : ∀ t : Token,
    (applyPurchases t as).totalSupply = t.totalSupply := by
  induction as with
  | nil => intro t; rfl
  | cons a rest ih =>
    intro t
    show (applyPurchases (applyPurchase t a) rest).totalSupply = t.totalSupply
    rw [ih (applyPurchase t a), applyPurchase_totalSupply]

/-- One purchase never increases `remainingSupply` (when the current supply is
nonnegative and the purchase amount is nonnegative). -/
theorem applyPurchase_remaining_le (t : Token) (a : ℚ) (h0 : 0 ≤ t.remainingSupply)
    (ha : 0 ≤ a) : (applyPurchase t a).remainingSupply ≤ t.remainingSupply := by
  cases h : t.type with
  | listing =>
    rw [applyPurchase_listing_remaining t a h]
    exact max_le h0 (by linarith)
  | user =>
    rw [applyPurchase_user_remaining t a h]

/-- The field `remainingSupply` stays nonnegative across any purchase sequence. -/
theorem applyPurchases_remaining_nonneg (as : List ℚ) : ∀ t : Token,
    0 ≤ t.remainingSupply → 0 ≤ (applyPurchases t as).remainingSupply := by
  induction as with
  | nil => intro t h0; exact h0
  | cons a rest ih =>
    intro t h0
    show 0 ≤ (applyPurchases (applyPurchase t a) rest).remainingSupply
    apply ih
    cases h : t.type with
    | listing =>
      rw [applyPurchase_listing_remaining t a h]
      exact le_max_left 0 _
    | user =>
      rw [applyPurchase_user_remaining t a h]
      exact h0

/-- The field `remainingSupply` never increases across a purchase sequence of
nonnegative amounts. -/
theorem applyPurchases_remaining_le (as : List ℚ) : ∀ t : Token,
    0 ≤ t.remainingSupply → (∀ a ∈ as, 0 ≤ a) →
    (applyPurchases t as).remainingSupply ≤ t.remainingSupply := by
  induction as with
  | nil => intro t _ _; exact le_refl _
  | cons a rest ih =>
    intro t h0 hnn
    have ha : 0 ≤ a := hnn a (List.mem_cons_self a rest)
    have h0' : 0 ≤ (applyPurchase t a).remainingSupply := by
      cases h : t.type with
      | listing =>
        rw [applyPurchase_listing_remaining t a h]
        exact le_max_left 0 _
      | user =>
        rw [applyPurchase_user_remaining t a h]
        exact h0
    show (applyPurchases (applyPurchase t a) rest).remainingSupply ≤ t.remainingSupply
    exact le_trans
      (ih (applyPurchase t a) h0' (fun b hb => hnn b (List.mem_cons_of_mem a hb)))
      (applyPurchase_remaining_le t a h0 ha)

/-- When the amounts are nonnegative and fit in the current supply, the floor
at 0 never bites and the fold is exact subtraction. -/
theorem applyPurchases_listing_exact (as : List ℚ) : ∀ t : Token,
    t.type = .listing → (∀ a ∈ as, 0 ≤ a) → as.sum ≤ t.remainingSupply →
    (applyPurchases t as).remainingSupply = t.remainingSupply - as.sum := by
  induction as with
  | nil => intro t _ _ _; simp [applyPurchases]
  | cons a rest ih =>
    intro t ht hnn hsum
    have ha : 0 ≤ a := hnn a (List.mem_cons_self a rest)
    have hrest : ∀ b ∈ rest, 0 ≤ b := fun b hb => hnn b (List.mem_cons_of_mem a hb)
    have hrsum : 0 ≤ rest.sum := List.sum_nonneg hrest
    have hsum' : a + rest.sum ≤ t.remainingSupply := by
      simpa [List.sum_cons] using hsum
    have hstep : (applyPurchase t a).remainingSupply = t.remainingSupply - a := by
      rw [applyPurchase_listing_remaining t a ht]
      exact max_eq_right (by linarith)
    have ht' : (applyPurchase t a).type = .listing := by
      rw [applyPurchase_type]
      exact ht
    have hb : rest.sum ≤ (applyPurchase t a).remainingSupply := by
      rw [hstep]
      linarith
    show (applyPurchases (applyPurchase t a) rest).remainingSupply
        = t.remainingSupply - List.sum (a :: rest)
    rw [ih (applyPurchase t a) ht' hrest hb, hstep, List.sum_cons]
    ring

/-- C4: a listing token created with total supply `S` keeps
`remainingSupply = S - A` after confirmed purchases of total amount `A` that
fit in the supply; `remainingSupply` is never negative, never exceeds
`totalSupply`, and a single confirmed purchase never increases it
(server.js lines 80-84 and 159-163). -/
theorem listing_supply_invariants (S p : ℚ) (as : List ℚ) (hS : 0 ≤ S)
    (hnn : ∀ a ∈ as, 0 ≤ a) :
    (as.sum ≤ S →
      (applyPurchases (createListingToken S p) as).remainingSupply = S - as.sum) ∧
    0 ≤ (applyPurchases (createListingToken S p) as).remainingSupply ∧
    (applyPurchases (createListingToken S p) as).remainingSupply
      ≤ (applyPurchases (createListingToken S p) as).totalSupply ∧
    (∀ (u : Token) (a : ℚ), 0 ≤ u.remainingSupply → 0 ≤ a →
      (applyPurchase u a).remainingSupply ≤ u.remainingSupply) := by
  have htype : (createListingToken S p).type = .listing := rfl
  have hr : (createListingToken S p).remainingSupply = S := rfl
  refine ⟨?_, ?_, ?_, ?_⟩
  · intro hsum
    rw [applyPurchases_listing_exact as (createListingToken S p) htype hnn
      (by rw [hr]; exact hsum), hr]
  · exact applyPurchases_remaining_nonneg as (createListingToken S p) (by rw [hr]; exact hS)
  · rw [applyPurchases_totalSupply]
    exact le_trans
      (applyPurchases_remaining_le as (createListingToken S p) (by rw [hr]; exact hS) hnn)
      (le_of_eq hr)
  · exact fun u a h0 ha => applyPurchase_remaining_le u a h0 ha

/-- C4 witness: buying 30 then 20 out of a 100-token listing leaves a
remaining supply of `100 - 50`. -/
theorem listing_supply_invariants_witness :
    (0 : ℚ) ≤ 100 ∧ (∀ a ∈ ([30, 20] : List ℚ), 0 ≤ a) ∧
    ([30, 20] : List ℚ).sum ≤ 100 ∧
    (applyPurchases (createListingToken 100 2) [30, 20]).remainingSupply
      = 100 - ([30, 20] : List ℚ).sum := by
  have hnn : ∀ a ∈ ([30, 20] : List ℚ), 0 ≤ a := by
    intro a ha
    simp only [List.mem_cons, List.not_mem_nil, or_false] at ha
    rcases ha with rfl | rfl <;> norm_num
  have hsum : ([30, 20] : List ℚ).sum ≤ 100 := by
    simp [List.sum_cons]
    norm_num
  exact ⟨by norm_num, hnn, hsum,
    (listing_supply_invariants 100 2 [30, 20] (by norm_num) hnn).1 hsum⟩

/-- A user token whose stored `dynamicPrice` is 0. -/
def tokenC5 : Token := { type := .user, dynamicPrice := 0, supplyIssued := 7 }

/-- A user token with the nonzero `dynamicPrice` 2. -/
def tokenW5 : Token := { type := .user, dynamicPrice := 2, supplyIssued := 3 }

/-- C5 counterexample: for a user token whose stored `dynamicPrice` is 0, a
confirmed purchase of amount 1 sets the price from the `|| 0.1` fallback
(server.js line 166), i.e. to `round(0.1 × 1.005, 9) = 0.1005`, not to
`round(dynamicPrice × 1.005, 9) = 0` as the claim's formula demands. -/
theorem user_price_zero_cex :
    tokenC5.type = .user ∧
    (applyPurchase tokenC5 1).dynamicPrice
      ≠ round9 (tokenC5.dynamicPrice * (1 + 5 / 1000 * 1)) := by
  refine ⟨rfl, ?_⟩
  have hL : (applyPurchase tokenC5 1).dynamicPrice = 201 / 2000 := by
    have h1 : (applyPurchase tokenC5 1).dynamicPrice
        = round9 ((if (0 : ℚ) = 0 then (1 : ℚ) / 10 else 0) * (1 + 5 / 1000 * 1)) := rfl
    rw [h1, if_pos rfl]
    unfold round9
    have h2 : ((1 : ℚ) / 10 * (1 + 5 / 1000 * 1) * 1000000000)
        = ((100500000 : ℕ) : ℚ) := by norm_num
    rw [h2, round_natCast]
    norm_num
  have hR : round9 (tokenC5.dynamicPrice * (1 + 5 / 1000 * 1)) = 0 := by
    show round9 (0 * (1 + 5 / 1000 * 1)) = 0
    unfold round9
    norm_num
  rw [hL, hR]
  norm_num

/-- C5 (amended): for every user token whose stored `dynamicPrice` is nonzero,
a confirmed purchase of amount `a` sets `supplyIssued' = supplyIssued + a` and
`dynamicPrice' = round(dynamicPrice × (1 + 0.005·a), 9)`; a zero (or missing)
stored price is first replaced by the 0.1 default (server.js lines 164-171). -/
theorem user_purchase_updates (t : Token) (a : ℚ) (ht : t.type = .user)
    (hp : t.dynamicPrice ≠ 0) :
    (applyPurchase t a).supplyIssued = t.supplyIssued + a ∧
    (applyPurchase t a).dynamicPrice = round9 (t.dynamicPrice * (1 + 5 / 1000 * a)) := by
  unfold applyPurchase
  rw [ht]
  refine ⟨rfl, ?_⟩
  show round9 ((if t.dynamicPrice = 0 then (1 : ℚ) / 10 else t.dynamicPrice)
      * (1 + 5 / 1000 * a)) = round9 (t.dynamicPrice * (1 + 5 / 1000 * a))
  rw [if_neg hp]

/-- C5 witness: a purchase of 4 tokens on a user token priced 2 issues 4 more
tokens and moves the price to `round(2 × 1.02, 9)`. -/
theorem user_purchase_updates_witness :
    tokenW5.type = .user ∧ tokenW5.dynamicPrice ≠ 0 ∧
    ((applyPurchase tokenW5 4).supplyIssued = tokenW5.supplyIssued + 4 ∧
     (applyPurchase tokenW5 4).dynamicPrice
       = round9 (tokenW5.dynamicPrice * (1 + 5 / 1000 * 4))) :=
  ⟨rfl, by norm_num [tokenW5],
    user_purchase_updates tokenW5 4 rfl (by norm_num [tokenW5])⟩

end CoinMaker
